import Mathlib

/-!
Shallow embedding of the `SpaceFlythrough` class (the per-frame update and
input logic of the space-flythrough demo, latest revision of the source
file), over exact rational arithmetic.  Vectors and quaternions follow the
rendering library's component formulas (`Vector3.applyQuaternion`,
`Vector3.crossVectors`, Hamilton quaternion product); scene-graph, DOM and
GPU objects are out of scope, as the specification declares them external
collaborators.  The engine's Euler-angle-to-quaternion synchronisation and
the trigonometric functions are passed as explicit function parameters
where an operation consults them, since they are engine/host code, not code
of this repository.
-/

/-- A 3-component vector with exact rational coordinates, standing for the
library's `Vector3`. -/
structure Vec3 where
  x : ℚ
  y : ℚ
  z : ℚ
deriving DecidableEq

/-- A quaternion in the library's storage order (x, y, z, w). -/
structure Quat where
  x : ℚ
  y : ℚ
  z : ℚ
  w : ℚ
deriving DecidableEq

/-- The library's default quaternion, rotation by nothing. -/
def Quat.identity : Quat := ⟨0, 0, 0, 1⟩

/-- Componentwise vector addition (`Vector3.add`). -/
def Vec3.add (a b : Vec3) : Vec3 := ⟨a.x + b.x, a.y + b.y, a.z + b.z⟩

/-- `Vector3.addScaledVector v s`: adds `v` scaled by `s`. -/
def Vec3.addScaledVector (a v : Vec3) (s : ℚ) : Vec3 :=
  ⟨a.x + v.x * s, a.y + v.y * s, a.z + v.z * s⟩

/-- `Vector3.crossVectors a b`, the cross product. -/
def Vec3.crossVectors (a b : Vec3) : Vec3 :=
  ⟨a.y * b.z - a.z * b.y, a.z * b.x - a.x * b.z, a.x * b.y - a.y * b.x⟩

/-- Squared euclidean length of a vector. -/
def Vec3.lengthSq (v : Vec3) : ℚ := v.x * v.x + v.y * v.y + v.z * v.z

/-- Rational square root: exact whenever the argument is the square of a
nonnegative rational (numerator and denominator in lowest terms are then
perfect squares).  Every vector normalised in the theorems below has
squared length exactly 1, so only this exact regime is ever exercised. -/
def ratSqrt (q : ℚ) : ℚ := (Nat.sqrt q.num.toNat : ℚ) / (Nat.sqrt q.den : ℚ)

/-- `Vector3.normalize`: divide by `length() || 1` (the library substitutes
1 for a zero length rather than dividing by zero). -/
def Vec3.normalize (v : Vec3) : Vec3 :=
  let l := ratSqrt v.lengthSq
  let d := if l = 0 then 1 else l
  ⟨v.x / d, v.y / d, v.z / d⟩

/-- `Vector3.applyQuaternion`, exactly the library's component formula:
t = 2 cross(q.xyz, v); result = v + q.w t + cross(q.xyz, t). -/
def Vec3.applyQuaternion (v : Vec3) (q : Quat) : Vec3 :=
  let tx := 2 * (q.y * v.z - q.z * v.y)
  let ty := 2 * (q.z * v.x - q.x * v.z)
  let tz := 2 * (q.x * v.y - q.y * v.x)
  ⟨v.x + q.w * tx + q.y * tz - q.z * ty,
   v.y + q.w * ty + q.z * tx - q.x * tz,
   v.z + q.w * tz + q.x * ty - q.y * tx⟩

/-- Hamilton quaternion product (`Quaternion.multiplyQuaternions`). -/
def Quat.mul (a b : Quat) : Quat :=
  ⟨a.x * b.w + a.w * b.x + a.y * b.z - a.z * b.y,
   a.y * b.w + a.w * b.y + a.z * b.x - a.x * b.z,
   a.z * b.w + a.w * b.z + a.x * b.y - a.y * b.x,
   a.w * b.w - a.x * b.x - a.y * b.y - a.z * b.z⟩

/-- Quaternion conjugate. -/
def Quat.conj (q : Quat) : Quat := ⟨-q.x, -q.y, -q.z, q.w⟩

/-- Squared norm of a quaternion. -/
def Quat.normSq (q : Quat) : ℚ := q.x ^ 2 + q.y ^ 2 + q.z ^ 2 + q.w ^ 2

/-- Rotation of a vector by a quaternion stated the specification's way:
the sandwich product q ⬝ (0, v) ⬝ conj q, keeping the vector part. -/
def Quat.rotateVec (q : Quat) (v : Vec3) : Vec3 :=
  let p : Quat := ⟨v.x, v.y, v.z, 0⟩
  let r := (q.mul p).mul q.conj
  ⟨r.x, r.y, r.z⟩

/-- The `keyState` mapping built in the constructor: seven recognised
controls, all initially released. -/
structure KeyState where
  keyW : Bool := false
  keyS : Bool := false
  keyA : Bool := false
  keyD : Bool := false
  keyQ : Bool := false
  keyE : Bool := false
  keyShift : Bool := false
deriving DecidableEq

/-- The JS assignment `this.keyState[key] = pressed` guarded by
`key in this.keyState`: a recognised name updates its entry, any other
name leaves the mapping untouched. -/
def KeyState.setControl (ks : KeyState) (key : String) (pressed : Bool) : KeyState :=
  if key = "W" then { ks with keyW := pressed }
  else if key = "S" then { ks with keyS := pressed }
  else if key = "A" then { ks with keyA := pressed }
  else if key = "D" then { ks with keyD := pressed }
  else if key = "Q" then { ks with keyQ := pressed }
  else if key = "E" then { ks with keyE := pressed }
  else if key = "SHIFT" then { ks with keyShift := pressed }
  else ks

/-- JS `toUpperCase()` as the handlers use it on key identifiers:
uppercase every character (ASCII case mapping). -/
def jsToUpperCase (s : String) : String := String.mk (s.data.map Char.toUpper)

/-- `onKeyDown`: uppercase the event's key identifier, then set the entry
to true when recognised. -/
def onKeyDown (ks : KeyState) (eventKey : String) : KeyState :=
  KeyState.setControl ks (jsToUpperCase eventKey) true

/-- `onKeyUp`: uppercase the event's key identifier, then set the entry to
false when recognised. -/
def onKeyUp (ks : KeyState) (eventKey : String) : KeyState :=
  KeyState.setControl ks (jsToUpperCase eventKey) false

/-- The craft entity (`this.spaceModel`): a world position and the Euler
rotation record the code reads and writes (`rotation.x/.y/.z`).  The craft
sits at the scene root, so its world position is its position. -/
structure Craft where
  position : Vec3
  rotation : Vec3
deriving DecidableEq

/-- The mutable application state the verified operations touch.  Defaults
are the constructor's initial values: no craft loaded yet, all controls
released, `moveSpeed = 0.2`, camera at z = 10, hover phase 0, empty trail
bounded by `maxTrailPoints = 100`. -/
structure SpaceState where
  spaceModel : Option Craft := none
  keyState : KeyState := {}
  moveSpeed : ℚ := 0.2
  cameraPosition : Vec3 := ⟨0, 0, 10⟩
  cameraLookTarget : Vec3 := ⟨0, 0, 0⟩
  hoverAngle : ℚ := 0
  hoverOffsetX : ℚ := 0
  hoverOffsetY : ℚ := 0
  hoverOffsetZ : ℚ := 0
  trailHistory : List Vec3 := []
  maxTrailPoints : Nat := 100
deriving DecidableEq

/-- `this.cameraOffset = new THREE.Vector3(0, 2, -10)`. -/
def cameraOffset : Vec3 := ⟨0, 2, -10⟩

/-- `this.cameraLookAhead = new THREE.Vector3(0, 0, -5)`. -/
def cameraLookAhead : Vec3 := ⟨0, 0, -5⟩

/-- The body of `moveModel`, line for line.  `quatOfRotation` is the
engine's Euler-to-quaternion synchronisation (external library code)
giving `this.spaceModel.quaternion` for the craft's current rotation
record; the tick reads it once, before any mutation, exactly as the
source computes `modelForward` first.  Branch order is the source's: S, W,
D (with bank clamped at 0.3), A (with bank clamped at -0.3), roll decay
when neither A nor D, pitch decay when neither W nor S. -/
def moveCraft (ks : KeyState) (moveSpeed : ℚ) (quatOfRotation : Vec3 → Quat)
    (model : Craft) : Craft :=
  let currentSpeed : ℚ := if ks.keyShift then moveSpeed * 2 else moveSpeed
  let modelForward :=
    ((Vec3.mk 0 0 (-1)).applyQuaternion (quatOfRotation model.rotation)).normalize
  let worldUp : Vec3 := ⟨0, 1, 0⟩
  let modelRight := (modelForward.crossVectors worldUp).normalize
  let p1 := if ks.keyS then
      model.position.addScaledVector modelForward currentSpeed else model.position
  let p2 := if ks.keyW then
      p1.addScaledVector modelForward (-currentSpeed) else p1
  let p3 := if ks.keyD then
      p2.addScaledVector modelRight (-currentSpeed) else p2
  let z1 := if ks.keyD then
      min (model.rotation.z + 0.05) 0.3 else model.rotation.z
  let p4 := if ks.keyA then
      p3.addScaledVector modelRight currentSpeed else p3
  let z2 := if ks.keyA then max (z1 - 0.05) (-0.3) else z1
  let z3 := if !ks.keyA && !ks.keyD then z2 * 0.9 else z2
  let x1 := if !ks.keyW && !ks.keyS then
      model.rotation.x * 0.95 else model.rotation.x
  ⟨p4, ⟨x1, model.rotation.y, z3⟩⟩

/-- The guard of `moveModel`: with no craft yet the tick is a no-op,
otherwise the craft is replaced by the moved craft. -/
def moveModel (quatOfRotation : Vec3 → Quat) (st : SpaceState) : SpaceState :=
  match st.spaceModel with
  | none => st
  | some model =>
    { st with spaceModel := some (moveCraft st.keyState st.moveSpeed quatOfRotation model) }

/-- `updateCamera`: guarded on the craft; camera position is the craft's
world position plus `cameraOffset` taken through the craft's quaternion,
and the camera is pointed (`lookAt`) at the world position plus the
rotated `cameraLookAhead`; we record that look target. -/
def updateCamera (quatOfRotation : Vec3 → Quat) (st : SpaceState) : SpaceState :=
  match st.spaceModel with
  | none => st
  | some model =>
    let modelPosition := model.position
    let offset := cameraOffset.applyQuaternion (quatOfRotation model.rotation)
    let targetPosition := modelPosition.add offset
    let lookAhead := cameraLookAhead.applyQuaternion (quatOfRotation model.rotation)
    let lookAtPoint := modelPosition.add lookAhead
    { st with cameraPosition := targetPosition, cameraLookTarget := lookAtPoint }

/-- `applyHoveringEffect`: guarded on the craft; adds small sinusoidal
offsets to the position and advances the hover phase by 0.05.  `sine` and
`cosine` are the host's `Math.sin` / `Math.cos`. -/
def applyHoveringEffect (sine cosine : ℚ → ℚ) (st : SpaceState) : SpaceState :=
  match st.spaceModel with
  | none => st
  | some model =>
    let hx := sine st.hoverAngle * 0.002
    let hy := cosine st.hoverAngle * 0.002
    let hz := cosine st.hoverAngle * 0.005
    { st with
      spaceModel := some { model with
        position := ⟨model.position.x + hx, model.position.y + hy, model.position.z + hz⟩ }
      hoverOffsetX := hx
      hoverOffsetY := hy
      hoverOffsetZ := hz
      hoverAngle := st.hoverAngle + 0.05 }

/-- The trail-history update inside `updateRibbonTrail`: `unshift` the new
sample, then `pop` the last entry when the length exceeds the bound. -/
def trailPush (maxPoints : Nat) (history : List Vec3) (pos : Vec3) : List Vec3 :=
  let h := pos :: history
  if h.length > maxPoints then h.dropLast else h

/-- `updateRibbonTrail`: guarded on the craft; samples the craft's world
position into the history (bounded by `maxTrailPoints`).  The subsequent
mesh rebuild (`generateTrail`) only constructs renderer geometry and is an
external collaborator. -/
def updateRibbonTrail (st : SpaceState) : SpaceState :=
  match st.spaceModel with
  | none => st
  | some model =>
    { st with trailHistory := trailPush st.maxTrailPoints st.trailHistory model.position }

/-- The sun-pulse update in `animate`, on the pair
(sunPulseTime, sunPulseDirection): advance the phase by 0.05 times the
direction, then flip the direction to -1 when the new phase strictly
exceeds 1 and to 1 when it is strictly below 0. -/
def sunPulseStep (p : ℚ × ℚ) : ℚ × ℚ :=
  let t := p.1 + 0.05 * p.2
  let dir := if t > 1 then -1 else if t < 0 then 1 else p.2
  (t, dir)

/-- The pulse state after n frames, from the initial state (0, 1) set when
the sun finishes loading. -/
def sunPulseIter (n : Nat) : ℚ × ℚ := sunPulseStep^[n] (0, 1)

/-- The trail-related own properties the constructor assigns, each `none`
(JS undefined) until its assignment runs.  `trailMesh` is set to JS null,
also `none` here; geometry, material and points objects are renderer-side,
so only their presence is tracked. -/
structure TrailSetup where
  trailParticles : Option (List Vec3) := none
  maxTrailParticles : Option Nat := none
  hasTrailMaterial : Bool := false
  trailHistory : Option (List Vec3) := none
  maxTrailPoints : Option Nat := none
  trailMesh : Option Unit := none
  trailPositions : Option Nat := none
  trailGeometry : Option Unit := none
  trailPoints : Option Unit := none
deriving DecidableEq

/-- The constructor's trail set-up block, assignment by assignment in
source order.  `new Float32Array(this.maxTrailParticles * 3)` cannot fault
(an undefined operand would give a length-0 array, modelled by `getD 0`);
but `this.trailGeometry.setAttribute(...)` is a method call on the value
of `trailGeometry`, which no statement of the class ever assigns, so the
call is made on JS undefined and raises a TypeError. -/
def constructorTrailInit : Except String TrailSetup :=
  let s0 : TrailSetup := {}
  let s1 := { s0 with trailParticles := some [] }
  let s2 := { s1 with maxTrailParticles := some 200 }
  let s3 := { s2 with hasTrailMaterial := true }
  let s4 := { s3 with trailHistory := some ([] : List Vec3) }
  let s5 := { s4 with maxTrailPoints := some 100 }
  let s6 := { s5 with trailMesh := none }
  let s7 := { s6 with trailPositions := some (s6.maxTrailParticles.getD 0 * 3) }
  match s7.trailGeometry with
  | none => Except.error "TypeError: this.trailGeometry is undefined"
  | some _ => Except.ok { s7 with trailPoints := some () }

/-! ### General lemmas about the embedded vector algebra -/

/-- A constant Euler-to-quaternion map standing in for the engine at the
identity orientation: the engine maps the zero rotation record to the
identity quaternion. -/
def identityQuatOf : Vec3 → Quat := fun _ => Quat.identity

theorem Vec3.applyQuaternion_identity (v : Vec3) :
    v.applyQuaternion Quat.identity = v := by
  obtain ⟨a, b, c⟩ := v
  simp only [Vec3.applyQuaternion, Quat.identity, Vec3.mk.injEq]
  refine ⟨by ring, by ring, by ring⟩

theorem ratSqrt_one : ratSqrt 1 = 1 := by
  simp [ratSqrt]

theorem Vec3.normalize_of_lengthSq_one (v : Vec3) (h : v.lengthSq = 1) :
    v.normalize = v := by
  obtain ⟨a, b, c⟩ := v
  simp [Vec3.normalize, h, ratSqrt_one]

theorem Vec3.addScaledVector_cancel (v f : Vec3) (s : ℚ) :
    (v.addScaledVector f s).addScaledVector f (-s) = v := by
  obtain ⟨a, b, c⟩ := v
  obtain ⟨p, q, r⟩ := f
  simp only [Vec3.addScaledVector, Vec3.mk.injEq]
  refine ⟨by ring, by ring, by ring⟩

theorem Vec3.addScaledVector_cancel_neg (v f : Vec3) (s : ℚ) :
    (v.addScaledVector f (-s)).addScaledVector f s = v := by
  obtain ⟨a, b, c⟩ := v
  obtain ⟨p, q, r⟩ := f
  simp only [Vec3.addScaledVector, Vec3.mk.injEq]
  refine ⟨by ring, by ring, by ring⟩

theorem applyQuaternion_eq_rotateVec (q : Quat) (v : Vec3) (h : q.normSq = 1) :
    v.applyQuaternion q = q.rotateVec v := by
  obtain ⟨qx, qy, qz, qw⟩ := q
  obtain ⟨vx, vy, vz⟩ := v
  simp only [Quat.normSq] at h
  simp only [Vec3.applyQuaternion, Quat.rotateVec, Quat.mul, Quat.conj, Vec3.mk.injEq]
  refine ⟨?_, ?_, ?_⟩
  · linear_combination (-vx) * h
  · linear_combination (-vy) * h
  · linear_combination (-vz) * h

/-! ### Claim theorems -/

/-- Claim C3: the specification says no operation is fatal, construction
included; but the constructor calls `setAttribute` on `this.trailGeometry`,
a property no statement of the class ever assigns, so constructing the
application object raises a TypeError instead of degrading silently. -/
theorem constructor_trailGeometry_fault :
    constructorTrailInit = Except.error "TypeError: this.trailGeometry is undefined" := rfl

/-- Claim C9: while the craft asset has not loaded (`spaceModel` absent),
every per-frame operation depending on it — `moveModel`, `updateCamera`,
`applyHoveringEffect`, `updateRibbonTrail` — returns the state unchanged,
raising no fault. -/
theorem frame_ops_noop_before_load (quatOf : Vec3 → Quat) (sine cosine : ℚ → ℚ)
    (st : SpaceState) (h : st.spaceModel = none) :
    moveModel quatOf st = st ∧ updateCamera quatOf st = st ∧
      applyHoveringEffect sine cosine st = st ∧ updateRibbonTrail st = st := by
  refine ⟨?_, ?_, ?_, ?_⟩ <;>
    simp [moveModel, updateCamera, applyHoveringEffect, updateRibbonTrail, h]

/-- Fresh application state: no craft loaded yet. -/
def noModelState : SpaceState := {}

/-- Witness for `frame_ops_noop_before_load` at a concrete unloaded state. -/
theorem frame_ops_noop_before_load_witness :
    moveModel identityQuatOf noModelState = noModelState ∧
      updateCamera identityQuatOf noModelState = noModelState ∧
      applyHoveringEffect (fun _ => 0) (fun _ => 0) noModelState = noModelState ∧
      updateRibbonTrail noModelState = noModelState :=
  frame_ops_noop_before_load identityQuatOf (fun _ => 0) (fun _ => 0) noModelState rfl

/-- Claim C10: a key event whose uppercased identifier is not in the fixed
control vocabulary W, S, A, D, Q, E, SHIFT leaves the whole key-state
mapping unchanged, on key-down and key-up alike. -/
theorem unknown_key_ignored (ks : KeyState) (eventKey : String)
    (h : jsToUpperCase eventKey ∉ (["W", "S", "A", "D", "Q", "E", "SHIFT"] : List String)) :
    onKeyDown ks eventKey = ks ∧ onKeyUp ks eventKey = ks := by
  simp only [List.mem_cons, List.not_mem_nil, or_false, not_or] at h
  obtain ⟨h1, h2, h3, h4, h5, h6, h7⟩ := h
  constructor <;>
    simp [onKeyDown, onKeyUp, KeyState.setControl, h1, h2, h3, h4, h5, h6, h7]

/-- Witness for `unknown_key_ignored`: the ArrowUp key event leaves a
fresh key state unchanged. -/
theorem unknown_key_ignored_witness :
    onKeyDown {} "ArrowUp" = {} ∧ onKeyUp {} "ArrowUp" = {} :=
  unknown_key_ignored {} "ArrowUp" (by decide)

/-- At identity orientation the forward vector is the local forward. -/
theorem forward_identity :
    ((Vec3.mk 0 0 (-1)).applyQuaternion Quat.identity).normalize = ⟨0, 0, -1⟩ := by
  rw [Vec3.applyQuaternion_identity]
  exact Vec3.normalize_of_lengthSq_one _ (by norm_num [Vec3.lengthSq])

/-- At identity orientation the right vector is the world x axis. -/
theorem right_identity :
    ((Vec3.mk 0 0 (-1)).crossVectors ⟨0, 1, 0⟩).normalize = ⟨1, 0, 0⟩ := by
  have h : (Vec3.mk 0 0 (-1)).crossVectors ⟨0, 1, 0⟩ = ⟨1, 0, 0⟩ := by
    simp only [Vec3.crossVectors, Vec3.mk.injEq]
    norm_num
  rw [h]
  exact Vec3.normalize_of_lengthSq_one _ (by norm_num [Vec3.lengthSq])

/-- Craft at the origin with the identity orientation record. -/
def originCraft : Craft := ⟨⟨0, 0, 0⟩, ⟨0, 0, 0⟩⟩

/-- The forward scenario of the specification: craft at the origin,
identity orientation, forward control W held, boost off, base speed 0.2. -/
def forwardScenarioState : SpaceState :=
  { spaceModel := some originCraft, keyState := { keyW := true } }

/-- Full evaluation of one `moveModel` tick in the forward scenario. -/
theorem forwardScenario_eval :
    moveModel identityQuatOf forwardScenarioState =
      { forwardScenarioState with spaceModel := some ⟨⟨0, 0, 0.2⟩, ⟨0, 0, 0⟩⟩ } := by
  simp only [moveModel, moveCraft, forwardScenarioState, originCraft, identityQuatOf,
    forward_identity, right_identity]
  norm_num [Vec3.addScaledVector]

/-- Claim C1 (counterexample): with W held for one frame at base speed 0.2
from the origin with identity orientation, the new position is not the
claimed (0, 0, -0.2). -/
theorem moveModel_forward_scenario_refuted :
    (moveModel identityQuatOf forwardScenarioState).spaceModel.map Craft.position ≠
      some ⟨0, 0, -0.2⟩ := by
  rw [forwardScenario_eval]
  simp only [Option.map_some', ne_eq, Option.some.injEq, Vec3.mk.injEq]
  norm_num

/-- Claim C1 (amended): the code binds W to minus forward (and S to plus
forward), so one application of `moveModel` with the forward control held
for one frame at base speed 0.2, from the origin with identity orientation
and local forward (0, 0, -1), yields position (0, 0, +0.2). -/
theorem moveModel_forward_scenario_actual :
    (moveModel identityQuatOf forwardScenarioState).spaceModel.map Craft.position =
      some ⟨0, 0, 0.2⟩ := by
  rw [forwardScenario_eval]
  rfl

/-- State for the opposite-strafe boundary case: both strafe controls held
while the roll already sits at the positive clamp 0.3. -/
def clampedStrafeState : SpaceState :=
  { spaceModel := some ⟨⟨0, 0, 0⟩, ⟨0, 0, 0.3⟩⟩,
    keyState := { keyA := true, keyD := true } }

/-- One tick with both strafes held at roll 0.3 nets roll 0.25. -/
theorem clampedStrafe_eval :
    (moveModel identityQuatOf clampedStrafeState).spaceModel.map (fun c => c.rotation.z) =
      some 0.25 := by
  simp only [moveModel, moveCraft, clampedStrafeState, identityQuatOf, forward_identity,
    right_identity]
  norm_num [min_def, max_def]

/-- Claim C4 (counterexample): with strafe-left and strafe-right held in
the same tick and the roll angle at the clamp 0.3, the tick moves the roll
to 0.25 — the net bank delta of the pair is not zero. -/
theorem opposite_strafe_bank_refuted :
    (moveModel identityQuatOf clampedStrafeState).spaceModel.map (fun c => c.rotation.z) ≠
      some 0.3 := by
  rw [clampedStrafe_eval]
  simp only [ne_eq, Option.some.injEq]
  norm_num

/-- Claim C4 (amended): opposite controls applied in the same tick cancel
in displacement exactly (each key of the pair adds the same vector with
opposite scale); the strafe pair also nets a zero bank delta provided the
roll angle lies in [-0.3, 0.25], so that the positive clamp in the D
branch (run before the A branch) is not hit; for roll in (0.25, 0.3] the
tick instead lands at exactly 0.25, a nonzero net change of
0.25 minus the roll. -/
theorem moveModel_opposite_controls_cancel (quatOf : Vec3 → Quat) (st : SpaceState)
    (model : Craft) (hm : st.spaceModel = some model)
    (hws : st.keyState.keyW = st.keyState.keyS)
    (had : st.keyState.keyA = st.keyState.keyD) :
    (moveModel quatOf st).spaceModel.map Craft.position = some model.position ∧
      (st.keyState.keyA = true → -(0.3 : ℚ) ≤ model.rotation.z →
        model.rotation.z ≤ 0.25 →
        (moveModel quatOf st).spaceModel.map (fun c => c.rotation.z) =
          some model.rotation.z) ∧
      (st.keyState.keyA = true → (0.25 : ℚ) < model.rotation.z →
        (moveModel quatOf st).spaceModel.map (fun c => c.rotation.z) =
          some 0.25) := by
  refine ⟨?_, ?_, ?_⟩
  · cases hs : st.keyState.keyS <;> cases hd : st.keyState.keyD <;>
      simp [moveModel, moveCraft, hm, hws, had, hs, hd, Vec3.addScaledVector_cancel,
        Vec3.addScaledVector_cancel_neg]
  · intro hA hlo hhi
    have hd : st.keyState.keyD = true := by rw [← had]; exact hA
    cases hs : st.keyState.keyS <;>
      simp [moveModel, moveCraft, hm, hws, hA, hd, hs] <;>
      rw [min_eq_left (by linarith), max_eq_left (by linarith)] <;>
      ring
  · intro hA hlo
    have hd : st.keyState.keyD = true := by rw [← had]; exact hA
    cases hs : st.keyState.keyS <;>
      simp [moveModel, moveCraft, hm, hws, hA, hd, hs] <;>
      rw [min_eq_right (by linarith), max_eq_left (by norm_num)] <;>
      norm_num

/-- State with all four opposite controls held and roll 0.1. -/
def fourKeysState : SpaceState :=
  { spaceModel := some ⟨⟨1, 2, 3⟩, ⟨0, 0, 0.1⟩⟩,
    keyState := { keyW := true, keyS := true, keyA := true, keyD := true } }

/-- Witness for `moveModel_opposite_controls_cancel` with all four
opposite controls held and roll 0.1. -/
theorem moveModel_opposite_controls_cancel_witness :
    (moveModel identityQuatOf fourKeysState).spaceModel.map Craft.position =
        some (Vec3.mk 1 2 3) ∧
      (fourKeysState.keyState.keyA = true → -(0.3 : ℚ) ≤ (0.1 : ℚ) →
        (0.1 : ℚ) ≤ 0.25 →
        (moveModel identityQuatOf fourKeysState).spaceModel.map (fun c => c.rotation.z) =
          some (0.1 : ℚ)) ∧
      (fourKeysState.keyState.keyA = true → (0.25 : ℚ) < (0.1 : ℚ) →
        (moveModel identityQuatOf fourKeysState).spaceModel.map (fun c => c.rotation.z) =
          some 0.25) :=
  moveModel_opposite_controls_cancel identityQuatOf fourKeysState
    ⟨⟨1, 2, 3⟩, ⟨0, 0, 0.1⟩⟩ rfl rfl rfl

/-- Claim C7: in a tick where neither strafe control is active, `moveModel`
multiplies the roll angle by 0.9: the magnitude strictly decreases whenever
the roll is nonzero, and the sign is preserved. -/
theorem roll_decay_toward_zero (quatOf : Vec3 → Quat) (st : SpaceState) (model : Craft)
    (hm : st.spaceModel = some model)
    (hA : st.keyState.keyA = false) (hD : st.keyState.keyD = false) :
    (moveModel quatOf st).spaceModel.map (fun c => c.rotation.z) =
        some (model.rotation.z * 0.9) ∧
      (model.rotation.z ≠ 0 → |model.rotation.z * 0.9| < |model.rotation.z|) ∧
      (0 < model.rotation.z → 0 < model.rotation.z * 0.9) ∧
      (model.rotation.z < 0 → model.rotation.z * 0.9 < 0) := by
  refine ⟨by simp [moveModel, moveCraft, hm, hA, hD], ?_, ?_, ?_⟩
  · intro h0
    rw [abs_mul]
    have h1 : |(0.9 : ℚ)| = 0.9 := by norm_num
    rw [h1]
    nlinarith [abs_pos.mpr h0]
  · intro h0
    exact mul_pos h0 (by norm_num)
  · intro h0
    exact mul_neg_of_neg_of_pos h0 (by norm_num)

/-- State with level strafing released and roll 0.2. -/
def rollDecayState : SpaceState := { spaceModel := some ⟨⟨0, 0, 0⟩, ⟨0, 0, 0.2⟩⟩ }

/-- Witness for `roll_decay_toward_zero` at roll 0.2 with strafes released. -/
theorem roll_decay_toward_zero_witness :
    (moveModel identityQuatOf rollDecayState).spaceModel.map (fun c => c.rotation.z) =
        some ((0.2 : ℚ) * 0.9) ∧
      ((0.2 : ℚ) ≠ 0 → |(0.2 : ℚ) * 0.9| < |(0.2 : ℚ)|) ∧
      (0 < (0.2 : ℚ) → 0 < (0.2 : ℚ) * 0.9) ∧
      ((0.2 : ℚ) < 0 → (0.2 : ℚ) * 0.9 < 0) :=
  roll_decay_toward_zero identityQuatOf rollDecayState ⟨⟨0, 0, 0⟩, ⟨0, 0, 0.2⟩⟩ rfl rfl rfl

/-- Claim C8: for a craft pose (position P, unit orientation Q),
`updateCamera` puts the camera exactly at P plus `cameraOffset` rotated by
Q and the look target exactly at P plus `cameraLookAhead` rotated by Q
(rotation stated as the quaternion sandwich product), with no smoothing:
any state holding the same craft pose gets the identical camera pose. -/
theorem updateCamera_rigid_follow (quatOf : Vec3 → Quat) (st : SpaceState) (model : Craft)
    (hm : st.spaceModel = some model) (hq : (quatOf model.rotation).normSq = 1) :
    (updateCamera quatOf st).cameraPosition =
        model.position.add ((quatOf model.rotation).rotateVec cameraOffset) ∧
      (updateCamera quatOf st).cameraLookTarget =
        model.position.add ((quatOf model.rotation).rotateVec cameraLookAhead) ∧
      ∀ st2, st2.spaceModel = some model →
        (updateCamera quatOf st2).cameraPosition = (updateCamera quatOf st).cameraPosition ∧
          (updateCamera quatOf st2).cameraLookTarget =
            (updateCamera quatOf st).cameraLookTarget := by
  refine ⟨?_, ?_, ?_⟩
  · simp only [updateCamera, hm]
    rw [applyQuaternion_eq_rotateVec _ _ hq]
  · simp only [updateCamera, hm]
    rw [applyQuaternion_eq_rotateVec _ _ hq]
  · intro st2 hm2
    constructor <;> simp only [updateCamera, hm, hm2]

/-- Craft at (3, 4, 5) with the identity orientation record. -/
def cameraScenarioState : SpaceState := { spaceModel := some ⟨⟨3, 4, 5⟩, ⟨0, 0, 0⟩⟩ }

/-- Witness for `updateCamera_rigid_follow` at a concrete pose with the
identity quaternion. -/
theorem updateCamera_rigid_follow_witness :
    (updateCamera identityQuatOf cameraScenarioState).cameraPosition =
        (Vec3.mk 3 4 5).add ((identityQuatOf ⟨0, 0, 0⟩).rotateVec cameraOffset) ∧
      (updateCamera identityQuatOf cameraScenarioState).cameraLookTarget =
        (Vec3.mk 3 4 5).add ((identityQuatOf ⟨0, 0, 0⟩).rotateVec cameraLookAhead) ∧
      ∀ st2, st2.spaceModel = some ⟨⟨3, 4, 5⟩, ⟨0, 0, 0⟩⟩ →
        (updateCamera identityQuatOf st2).cameraPosition =
            (updateCamera identityQuatOf cameraScenarioState).cameraPosition ∧
          (updateCamera identityQuatOf st2).cameraLookTarget =
            (updateCamera identityQuatOf cameraScenarioState).cameraLookTarget :=
  updateCamera_rigid_follow identityQuatOf cameraScenarioState ⟨⟨3, 4, 5⟩, ⟨0, 0, 0⟩⟩ rfl
    (by norm_num [identityQuatOf, Quat.identity, Quat.normSq])

theorem sunPulseIter_succ (n : Nat) :
    sunPulseIter (n + 1) = sunPulseStep (sunPulseIter n) := by
  unfold sunPulseIter
  rw [Function.iterate_succ_apply']

/-- For the first twenty frames the pulse ramps linearly with direction
+1: the check is `> 1`, so reaching exactly 1 does not flip. -/
theorem sunPulseIter_ramp : ∀ n : Nat, n ≤ 20 → sunPulseIter n = ((n : ℚ) * 0.05, 1) := by
  intro n
  induction n with
  | zero =>
    intro _
    norm_num [sunPulseIter]
  | succ n ih =>
    intro hn
    have hn19 : (n : ℚ) ≤ 19 := by exact_mod_cast Nat.le_of_lt_succ (by omega)
    have hn0 : (0 : ℚ) ≤ (n : ℚ) := Nat.cast_nonneg n
    rw [sunPulseIter_succ, ih (by omega)]
    simp only [sunPulseStep]
    rw [if_neg (by linarith), if_neg (by linarith)]
    simp only [Prod.mk.injEq]
    refine ⟨by push_cast; ring, trivial⟩

/-- Claim C2 (counterexample): from the initial pulse state (0, 1), after
20 exact updates the phase is exactly 1 yet the direction kept for the
next frame is still +1 (no flip at the boundary), and after 21 updates the
phase is 1.05, outside [0, 1]. -/
theorem sunPulse_boundary_refuted :
    sunPulseIter 20 = (1, 1) ∧ sunPulseIter 21 = (1.05, -1) ∧ ¬ ((1.05 : ℚ) ≤ 1) := by
  have h20 : sunPulseIter 20 = (1, 1) := by
    rw [sunPulseIter_ramp 20 (by norm_num)]
    norm_num
  refine ⟨h20, ?_, by norm_num⟩
  rw [show (21 : Nat) = 20 + 1 from rfl, sunPulseIter_succ, h20]
  simp only [sunPulseStep]
  norm_num

/-- Inductive window of the pulse pair: moving up the phase sits in
[-0.05, 1], moving down it sits in [0, 1.05]. -/
def PulseInv (p : ℚ × ℚ) : Prop :=
  (p.2 = 1 ∧ -(0.05 : ℚ) ≤ p.1 ∧ p.1 ≤ 1) ∨ (p.2 = -1 ∧ 0 ≤ p.1 ∧ p.1 ≤ 1.05)

theorem pulseInv_step (p : ℚ × ℚ) (h : PulseInv p) : PulseInv (sunPulseStep p) := by
  obtain ⟨c, d⟩ := p
  simp only [PulseInv] at h ⊢
  simp only [sunPulseStep]
  rcases h with ⟨h2, hlo, hhi⟩ | ⟨h2, hlo, hhi⟩ <;> subst h2 <;>
    split_ifs with ha hb
  · right
    exact ⟨rfl, by linarith, by linarith⟩
  · exact absurd hb (by linarith)
  · left
    exact ⟨rfl, by linarith, by linarith⟩
  · exact absurd ha (by linarith)
  · left
    exact ⟨rfl, by linarith, by linarith⟩
  · right
    exact ⟨rfl, by linarith, by linarith⟩

theorem pulseInv_iter (n : Nat) : PulseInv (sunPulseIter n) := by
  induction n with
  | zero =>
    left
    norm_num [sunPulseIter]
  | succ n ih =>
    rw [sunPulseIter_succ]
    exact pulseInv_step _ ih

/-- Claim C2 (amended): after every pulse update the phase lies within
[-0.05, 1.05] — it overshoots each spec bound by at most one 0.05 step —
and flips are strict: a phase above 1 makes the next direction -1, a phase
below 0 makes it +1, while a phase inside [0, 1] (including exactly 0 and
exactly 1) leaves the direction unchanged. -/
theorem sunPulse_phase_window_and_flips (n : Nat) :
    (-(0.05 : ℚ) ≤ (sunPulseIter n).1 ∧ (sunPulseIter n).1 ≤ 1.05) ∧
      ∀ p : ℚ × ℚ,
        (1 < (sunPulseStep p).1 → (sunPulseStep p).2 = -1) ∧
        ((sunPulseStep p).1 < 0 → (sunPulseStep p).2 = 1) ∧
        (0 ≤ (sunPulseStep p).1 → (sunPulseStep p).1 ≤ 1 → (sunPulseStep p).2 = p.2) := by
  constructor
  · rcases pulseInv_iter n with ⟨h2, hlo, hhi⟩ | ⟨h2, hlo, hhi⟩ <;>
      exact ⟨by linarith, by linarith⟩
  · intro p
    obtain ⟨c, d⟩ := p
    simp only [sunPulseStep]
    refine ⟨fun h1 => ?_, fun h1 => ?_, fun h1 h2 => ?_⟩
    · rw [if_pos h1]
    · rw [if_neg (by linarith), if_pos h1]
    · rw [if_neg (by linarith), if_neg (by linarith)]

theorem trailPush_eq_take (h : List Vec3) (p : Vec3) (hb : h.length ≤ 100) :
    trailPush 100 h p = (p :: h).take 100 := by
  simp only [trailPush]
  by_cases hc : (p :: h).length > 100
  · rw [if_pos hc, List.dropLast_eq_take]
    congr 1
    simp only [List.length_cons] at hc ⊢
    omega
  · rw [if_neg hc, List.take_of_length_le (Nat.le_of_not_lt hc)]

theorem take_append_take (xs ys : List Vec3) (n : Nat) :
    (xs ++ ys.take n).take n = (xs ++ ys).take n := by
  rw [List.take_append_eq_append_take, List.take_append_eq_append_take, List.take_take]
  have hmin : min (n - xs.length) n = n - xs.length := by omega
  rw [hmin]

theorem foldl_trailPush (ps : List Vec3) : ∀ acc : List Vec3, acc.length ≤ 100 →
    ps.foldl (trailPush 100) acc = (ps.reverse ++ acc).take 100 := by
  induction ps with
  | nil =>
    intro acc h
    simpa using (List.take_of_length_le h).symm
  | cons p ps ih =>
    intro acc h
    rw [List.foldl_cons, trailPush_eq_take acc p h,
      ih _ (by rw [List.length_take]; omega), take_append_take]
    congr 1
    simp

/-- Claim C5: folding any sample sequence through the trail update from
the empty history leaves exactly the newest-first prefix of at most 100
samples: the length never exceeds the bound, after a 101st sample the
first (oldest) sample is no longer present, the most recent sample sits at
index 0, and the history is ordered newest first (it equals
`ps.reverse.take 100`).  The last conjunct ties the fold function to
`updateRibbonTrail` itself. -/
theorem trailHistory_bounded_newest_first (ps : List Vec3) :
    ps.foldl (trailPush 100) [] = ps.reverse.take 100 ∧
      (ps.foldl (trailPush 100) []).length ≤ 100 ∧
      (∀ p rest, ps = p :: rest → rest.length = 100 → p ∉ rest →
        p ∉ ps.foldl (trailPush 100) []) ∧
      (ps.foldl (trailPush 100) []).head? = ps.getLast? ∧
      (∀ st model, st.spaceModel = some model →
        (updateRibbonTrail st).trailHistory =
          trailPush st.maxTrailPoints st.trailHistory model.position) := by
  have hfold : ps.foldl (trailPush 100) [] = ps.reverse.take 100 := by
    simpa using foldl_trailPush ps [] (by simp)
  refine ⟨hfold, ?_, ?_, ?_, ?_⟩
  · rw [hfold, List.length_take]
    exact min_le_left _ _
  · rintro p rest rfl hlen hmem
    have h1 : rest.reverse.length = 100 := by simpa using hlen
    rw [hfold, List.reverse_cons, List.take_append_eq_append_take,
      List.take_of_length_le (le_of_eq h1), h1]
    simp [List.mem_reverse, hmem]
  · rw [hfold, ← List.head?_reverse]
    cases hr : ps.reverse with
    | nil => simp
    | cons q t =>
      rw [show (100 : Nat) = 99 + 1 from rfl, List.take_succ_cons]
      simp
  · intro st model hm
    simp [updateRibbonTrail, hm]

theorem moveCraft_rotZ_D (ks : KeyState) (sp : ℚ) (quatOf : Vec3 → Quat) (model : Craft)
    (hD : ks.keyD = true) (hA : ks.keyA = false) :
    (moveCraft ks sp quatOf model).rotation.z = min (model.rotation.z + 0.05) 0.3 := by
  simp [moveCraft, hD, hA]

theorem moveCraft_rotZ_A (ks : KeyState) (sp : ℚ) (quatOf : Vec3 → Quat) (model : Craft)
    (hA : ks.keyA = true) (hD : ks.keyD = false) :
    (moveCraft ks sp quatOf model).rotation.z = max (model.rotation.z - 0.05) (-0.3) := by
  simp [moveCraft, hA, hD]

theorem moveModel_some_eq (quatOf : Vec3 → Quat) (st : SpaceState) (model : Craft)
    (hm : st.spaceModel = some model) :
    moveModel quatOf st =
      { st with spaceModel := some (moveCraft st.keyState st.moveSpeed quatOf model) } := by
  simp [moveModel, hm]

/-- Craft at the origin, level, with only strafe-right D held. -/
def strafeRightState : SpaceState :=
  { spaceModel := some ⟨⟨0, 0, 0⟩, ⟨0, 0, 0⟩⟩, keyState := { keyD := true } }

/-- Craft at the origin, level, with only strafe-left A held. -/
def strafeLeftState : SpaceState :=
  { spaceModel := some ⟨⟨0, 0, 0⟩, ⟨0, 0, 0⟩⟩, keyState := { keyA := true } }

theorem strafeRight_ramp : ∀ n : Nat, n ≤ 6 →
    ∃ m, ((moveModel identityQuatOf)^[n] strafeRightState).spaceModel = some m ∧
      ((moveModel identityQuatOf)^[n] strafeRightState).keyState = strafeRightState.keyState ∧
      ((moveModel identityQuatOf)^[n] strafeRightState).moveSpeed = strafeRightState.moveSpeed ∧
      m.rotation.z = (n : ℚ) * 0.05 := by
  intro n
  induction n with
  | zero => exact fun _ => ⟨_, rfl, rfl, rfl, by norm_num⟩
  | succ n ih =>
    intro hn
    obtain ⟨m, hmod, hkey, hsp, hz⟩ := ih (by omega)
    rw [Function.iterate_succ_apply', moveModel_some_eq _ _ _ hmod]
    refine ⟨_, rfl, by simpa using hkey, by simpa using hsp, ?_⟩
    rw [moveCraft_rotZ_D _ _ _ _ (by rw [hkey]; rfl) (by rw [hkey]; rfl), hz]
    have hn5 : (n : ℚ) ≤ 5 := by exact_mod_cast Nat.le_of_lt_succ (by omega)
    rw [min_eq_left (by linarith)]
    push_cast
    ring

theorem strafeLeft_ramp : ∀ n : Nat, n ≤ 6 →
    ∃ m, ((moveModel identityQuatOf)^[n] strafeLeftState).spaceModel = some m ∧
      ((moveModel identityQuatOf)^[n] strafeLeftState).keyState = strafeLeftState.keyState ∧
      ((moveModel identityQuatOf)^[n] strafeLeftState).moveSpeed = strafeLeftState.moveSpeed ∧
      m.rotation.z = -((n : ℚ) * 0.05) := by
  intro n
  induction n with
  | zero => exact fun _ => ⟨_, rfl, rfl, rfl, by norm_num⟩
  | succ n ih =>
    intro hn
    obtain ⟨m, hmod, hkey, hsp, hz⟩ := ih (by omega)
    rw [Function.iterate_succ_apply', moveModel_some_eq _ _ _ hmod]
    refine ⟨_, rfl, by simpa using hkey, by simpa using hsp, ?_⟩
    rw [moveCraft_rotZ_A _ _ _ _ (by rw [hkey]; rfl) (by rw [hkey]; rfl), hz]
    have hn5 : (n : ℚ) ≤ 5 := by exact_mod_cast Nat.le_of_lt_succ (by omega)
    rw [max_eq_left (by linarith)]
    push_cast
    ring

/-- Claim C6: while one strafe control is held and the other is not, the
roll update is the clamped fixed step (D: z to min(z+0.05, 0.3); A: z to
max(z-0.05, -0.3)); starting inside [-0.3, 0.3] the roll stays inside,
moves monotonically by 0.05 toward the corresponding limit unless already
clamped, and from level flight the limit is reached in exactly 6 frames,
in both directions. -/
theorem strafe_bank_monotone_saturation :
    (∀ quatOf st model, st.spaceModel = some model →
      st.keyState.keyD = true → st.keyState.keyA = false →
      -(0.3 : ℚ) ≤ model.rotation.z → model.rotation.z ≤ 0.3 →
      (moveModel quatOf st).spaceModel.map (fun c => c.rotation.z) =
          some (min (model.rotation.z + 0.05) 0.3) ∧
        -(0.3 : ℚ) ≤ min (model.rotation.z + 0.05) 0.3 ∧
        min (model.rotation.z + 0.05) 0.3 ≤ 0.3 ∧
        model.rotation.z ≤ min (model.rotation.z + 0.05) 0.3 ∧
        (min (model.rotation.z + 0.05) 0.3 = model.rotation.z + 0.05 ∨
          min (model.rotation.z + 0.05) 0.3 = 0.3)) ∧
      (∀ quatOf st model, st.spaceModel = some model →
        st.keyState.keyA = true → st.keyState.keyD = false →
        -(0.3 : ℚ) ≤ model.rotation.z → model.rotation.z ≤ 0.3 →
        (moveModel quatOf st).spaceModel.map (fun c => c.rotation.z) =
            some (max (model.rotation.z - 0.05) (-0.3)) ∧
          -(0.3 : ℚ) ≤ max (model.rotation.z - 0.05) (-0.3) ∧
          max (model.rotation.z - 0.05) (-0.3) ≤ 0.3 ∧
          max (model.rotation.z - 0.05) (-0.3) ≤ model.rotation.z ∧
          (max (model.rotation.z - 0.05) (-0.3) = model.rotation.z - 0.05 ∨
            max (model.rotation.z - 0.05) (-0.3) = -0.3)) ∧
      ((moveModel identityQuatOf)^[6] strafeRightState).spaceModel.map
          (fun c => c.rotation.z) = some 0.3 ∧
      ((moveModel identityQuatOf)^[6] strafeLeftState).spaceModel.map
          (fun c => c.rotation.z) = some (-0.3) := by
  refine ⟨?_, ?_, ?_, ?_⟩
  · intro quatOf st model hm hD hA hlo hhi
    refine ⟨?_, le_min (by linarith) (by norm_num), min_le_right _ _,
      le_min (by linarith) hhi, ?_⟩
    · rw [moveModel_some_eq _ _ _ hm]
      simp [moveCraft_rotZ_D _ _ _ _ hD hA]
    · rcases le_total (model.rotation.z + 0.05) 0.3 with h | h
      · exact Or.inl (min_eq_left h)
      · exact Or.inr (min_eq_right h)
  · intro quatOf st model hm hA hD hlo hhi
    refine ⟨?_, le_max_right _ _, max_le (by linarith) (by norm_num),
      max_le (by linarith) hlo, ?_⟩
    · rw [moveModel_some_eq _ _ _ hm]
      simp [moveCraft_rotZ_A _ _ _ _ hA hD]
    · rcases le_total (-(0.3 : ℚ)) (model.rotation.z - 0.05) with h | h
      · exact Or.inl (max_eq_left h)
      · exact Or.inr (max_eq_right h)
  · obtain ⟨m, hmod, hkey, hsp, hz⟩ := strafeRight_ramp 6 (by norm_num)
    rw [hmod]
    simp only [Option.map_some', Option.some.injEq, hz]
    norm_num
  · obtain ⟨m, hmod, hkey, hsp, hz⟩ := strafeLeft_ramp 6 (by norm_num)
    rw [hmod]
    simp only [Option.map_some', Option.some.injEq, hz]
    norm_num
